import Mathlib

/-!
# File-name API of the mmg library (`src/common/mmg_API_fonctions.c`)

A shallow embedding of the name setters `MMG5_Set_inputMeshName`,
`MMG5_Set_inputSolName`, `MMG5_Set_outputSolName`, of `MMG5_Free_names` and of
`MMG5_Alloc_mesh`, together with the memory budget (`memCur`, `memMax`) they
charge.

Conventions of the embedding.

* A C string (`char*` to a NUL-terminated buffer) is the `List Char` of the
  characters before the terminator; `strlen` is `List.length`.  A pointer that
  may be `NULL` is an `Option`.
* `long long` and `size_t` quantities are `Int`; sizes are string lengths plus
  small constants, far from the range where the machine width matters.
* Only the fields of `MMG5_Mesh`, `MMG5_Sol` and `MMG5_Info` that the embedded
  functions read or write are kept.
* `calloc` and `realloc` are assumed to succeed (the `perror`/`exit` branch of
  the allocation macros is not modelled).
-/

namespace MMG5

/-- C string: the characters before the terminating NUL. -/
abbrev CStr := List Char

/-- `MMG5_Info` (libmmg.h), restricted to the verbosity and debug flags. -/
structure MMG5_Info where
  imprim : Int
  ddebug : Int
  deriving DecidableEq, Repr

/-- `MMG5_Mesh` (libmmg.h), restricted to the budget, the names and `info`. -/
structure MMG5_Mesh where
  memMax : Int
  memCur : Int
  namein : Option CStr
  nameout : Option CStr
  info : MMG5_Info
  deriving DecidableEq, Repr

/-- `MMG5_Sol` (libmmg.h), restricted to its two names. -/
structure MMG5_Sol where
  namein : Option CStr
  nameout : Option CStr
  deriving DecidableEq, Repr

/-- How a call ends: it returns a code to its caller, it ends the program with
`exit(EXIT_FAILURE)`, or it runs into undefined behaviour (`strlen` of a null
pointer).  `st` is the state at that point and `out` what was written to
`stdout` by the statements of the function itself. -/
inductive Outcome (σ : Type) where
  | ret (code : Int) (st : σ) (out : List String)
  | exit (st : σ) (out : List String)
  | fault
  deriving DecidableEq, Repr

/-- C `strlen`. -/
def strlen (s : CStr) : Int := (s.length : Int)

/-- C `strstr`: offset of the first occurrence of `needle` in `hay`, or `none`
(a null pointer) when there is none. -/
def strstr : CStr → CStr → Option Nat
  | [], needle => if needle.isPrefixOf [] then some 0 else none
  | c :: hay, needle =>
    if needle.isPrefixOf (c :: hay) then some 0
    else (strstr hay needle).map (· + 1)

/-- The effect of `ptr = strstr(s,".mesh"); if ( ptr ) *ptr = 0;` on the
string held by the buffer `s`. -/
def cutAtMesh (s : CStr) : CStr :=
  match strstr s ".mesh".toList with
  | some i => s.take i
  | none => s

/-- Modelled from the spec: the macro `_MMG5_ADD_MEM(mesh,size,message,law)` of
`mmg.h`, which is not among the sources.  It is `requestGrowth` of the memory
budget: on success `memCur` grows by `size`; when the budget would be exceeded
nothing is changed and the result is `none`, upon which the caller runs `law`.
Its own diagnostic messages are not modelled. -/
def _MMG5_ADD_MEM (mesh : MMG5_Mesh) (size : Int) : Option MMG5_Mesh :=
  if mesh.memCur + size > mesh.memMax then none
  else some { mesh with memCur := mesh.memCur + size }

/-- Modelled from the spec: the budget part of the macro
`_MMG5_DEL_MEM(mesh,ptr,size)` of `mmg.h`, which is not among the sources.  It
is `requestShrink` of the memory budget: `memCur` is decremented by `size`.
The pointer part (the storage is freed and the pointer reset to null) is
written out at each call site.  That the result stays non-negative is a
property of the call sites, stated as a theorem, and is not built in here. -/
def _MMG5_DEL_MEM (mesh : MMG5_Mesh) (size : Int) : MMG5_Mesh :=
  { mesh with memCur := mesh.memCur - size }

/-- Bytes charged to the budget for a stored name: `strlen + 1`, and nothing
for a null pointer. -/
def nameBytes : Option CStr → Int
  | none => 0
  | some s => strlen s + 1

/-- The statement `if ( p ) _MMG5_DEL_MEM(mesh,p,(strlen(p)+1)*sizeof(char));`
seen from the budget. -/
def delName (mesh : MMG5_Mesh) : Option CStr → MMG5_Mesh
  | none => mesh
  | some s => _MMG5_DEL_MEM mesh ((strlen s + 1) * 1)

/-- A freshly `calloc`ed `MMG5_Mesh`: every field is zero, every pointer null. -/
def zeroMesh : MMG5_Mesh :=
  { memMax := 0, memCur := 0, namein := none, nameout := none,
    info := { imprim := 0, ddebug := 0 } }

/-- A freshly `calloc`ed `MMG5_Sol`. -/
def zeroSol : MMG5_Sol := { namein := none, nameout := none }

/-- `MMG5_Alloc_mesh` (lines 49-62).  `sizeofSol` is `sizeof(MMG5_Sol)`; the
arguments are the incoming values of `*mesh` and `*sol`, the result the values
of `*mesh` and `*sol` on return. -/
def MMG5_Alloc_mesh (sizeofSol : Int) (mesh : Option MMG5_Mesh)
    (sol : Option MMG5_Sol) : MMG5_Mesh × MMG5_Sol :=
  -- if ( *mesh ) _MMG5_SAFE_FREE(*mesh);  _MMG5_SAFE_CALLOC(*mesh,1,MMG5_Mesh);
  let _freed := mesh
  let mesh1 := zeroMesh
  -- if ( *sol ) _MMG5_DEL_MEM(*mesh,*sol,sizeof(MMG5_Sol));
  let mesh2 := match sol with
    | some _ => _MMG5_DEL_MEM mesh1 sizeofSol
    | none => mesh1
  -- _MMG5_SAFE_CALLOC(*sol,1,MMG5_Sol);
  (mesh2, zeroSol)

/-- The two `fprintf` of lines 156-157. -/
def noInputMeshName : List String :=
  ["  ## Warning: no name given for input mesh.\n",
   "     Use of default value \"mesh.mesh\".\n"]

/-- `MMG5_Set_inputMeshName` (lines 136-161). -/
def MMG5_Set_inputMeshName (mesh : MMG5_Mesh) (meshin : CStr) :
    Outcome MMG5_Mesh :=
  let mesh1 := { delName mesh mesh.namein with namein := none }
  if strlen meshin ≠ 0 then
    match _MMG5_ADD_MEM mesh1 ((strlen meshin + 1) * 1) with
    | none => .exit mesh1 ["  Exit program.\n"]
    | some mesh2 => .ret 1 { mesh2 with namein := some meshin } []
  else
    match _MMG5_ADD_MEM mesh1 (10 * 1) with
    | none => .exit mesh1 ["  Exit program.\n"]
    | some mesh2 =>
      .ret 1 { mesh2 with namein := some "mesh.mesh".toList }
        (if mesh2.info.imprim > 5 ∨ mesh2.info.ddebug ≠ 0 then noInputMeshName
         else [])

/-- `MMG5_Set_inputSolName` (lines 172-207). -/
def MMG5_Set_inputSolName (mesh : MMG5_Mesh) (sol : MMG5_Sol) (solin : CStr) :
    Outcome (MMG5_Mesh × MMG5_Sol) :=
  let mesh1 := delName mesh sol.namein
  let sol1 := { sol with namein := none }
  if strlen solin ≠ 0 then
    match _MMG5_ADD_MEM mesh1 ((strlen solin + 1) * 1) with
    | none => .exit (mesh1, sol1) ["  Exit program.\n"]
    | some mesh2 => .ret 1 (mesh2, { sol1 with namein := some solin }) []
  else
    match mesh1.namein with
    | none => .fault
    | some mname =>
      if strlen mname ≠ 0 then
        -- calloc, strcpy, strstr, truncation and realloc
        let sol2 := { sol1 with namein := some (cutAtMesh mname) }
        match _MMG5_ADD_MEM mesh1 ((strlen (cutAtMesh mname) + 1) * 1) with
        | none => .exit (mesh1, sol2) ["  Exit program.\n"]
        | some mesh2 => .ret 1 (mesh2, sol2) []
      else
        match _MMG5_ADD_MEM mesh1 (9 * 1) with
        | none => .exit (mesh1, sol1) ["  Exit program.\n"]
        | some mesh2 =>
          .ret 1 (mesh2, { sol1 with namein := some "mesh.sol".toList }) []

/-- The two `fprintf` of lines 250-251. -/
def noOutputMeshName : List String :=
  ["  ## Error: no name for output mesh. please, use",
   " the MMG5_Set_outputMeshName to set the mesh name.\n"]

/-- `MMG5_Set_outputSolName` (lines 218-256). -/
def MMG5_Set_outputSolName (mesh : MMG5_Mesh) (sol : MMG5_Sol) (solout : CStr) :
    Outcome (MMG5_Mesh × MMG5_Sol) :=
  let mesh1 := delName mesh sol.nameout
  let sol1 := { sol with nameout := none }
  if strlen solout ≠ 0 then
    match _MMG5_ADD_MEM mesh1 ((strlen solout + 1) * 1) with
    | none => .exit (mesh1, sol1) ["  Exit program.\n"]
    | some mesh2 => .ret 1 (mesh2, { sol1 with nameout := some solout }) []
  else
    match mesh1.nameout with
    | none => .fault
    | some mname =>
      if strlen mname ≠ 0 then
        -- calloc, strcpy, strstr, truncation, strcat
        let derived := cutAtMesh mname ++ ".sol".toList
        let sol2 := { sol1 with nameout := some derived }
        match _MMG5_ADD_MEM mesh1 ((strlen derived + 1) * 1) with
        | none => .exit (mesh1, sol2) ["  Exit program.\n"]
        | some mesh2 => .ret 1 (mesh2, sol2) []
      else
        .ret 0 (mesh1, sol1) noOutputMeshName

/-- `MMG5_Free_names` (lines 265-286); `met` may be a null pointer. -/
def MMG5_Free_names (mesh : MMG5_Mesh) (met : Option MMG5_Sol) :
    MMG5_Mesh × Option MMG5_Sol :=
  let mesh1 := { delName mesh mesh.nameout with nameout := none }
  let mesh2 := { delName mesh1 mesh1.namein with namein := none }
  match met with
  | none => (mesh2, none)
  | some m =>
    let mesh3 := delName mesh2 m.namein
    let m1 := { m with namein := none }
    let mesh4 := delName mesh3 m1.nameout
    (mesh4, some { m1 with nameout := none })

/-- The name `MMG5_Set_inputMeshName` is about to store: the argument, or the
default of the `else` branch (line 154). -/
def inputMeshNameToStore (meshin : CStr) : CStr :=
  if meshin ≠ [] then meshin else "mesh.mesh".toList

/-- The name `MMG5_Set_inputSolName` is about to store, by branch (lines 177,
185 and 198); `none` when the branch reads a null mesh name. -/
def inputSolNameToStore (mname : Option CStr) (solin : CStr) : Option CStr :=
  if solin ≠ [] then some solin
  else match mname with
    | none => none
    | some m => if m ≠ [] then some (cutAtMesh m) else some "mesh.sol".toList

/-- The name `MMG5_Set_outputSolName` is about to store, by branch (lines 224
and 232); `none` when no name is stored (null or empty output mesh name). -/
def outputSolNameToStore (mname : Option CStr) (solout : CStr) : Option CStr :=
  if solout ≠ [] then some solout
  else match mname with
    | none => none
    | some m => if m ≠ [] then some (cutAtMesh m ++ ".sol".toList) else none

/-- The budget admits replacing the stored name `old` by `new`: once `old` is
released, charging `strlen new + 1` does not exceed `memMax`. -/
abbrev admits (mesh : MMG5_Mesh) (old : Option CStr) (new : CStr) : Prop :=
  mesh.memCur - nameBytes old + (strlen new + 1) ≤ mesh.memMax

/-- The budget refuses replacing the stored name `old` by `new`. -/
abbrev refuses (mesh : MMG5_Mesh) (old : Option CStr) (new : CStr) : Prop :=
  mesh.memMax < mesh.memCur - nameBytes old + (strlen new + 1)

/-- Specification of the cut made by `strstr` and `*ptr = 0`: `p` is the part
of `m` before the first occurrence of `".mesh"`, or all of `m` when `m` does
not contain `".mesh"`. -/
def BeforeFirstMesh (m p : CStr) : Prop :=
  (¬ ".mesh".toList <:+: m ∧ p = m) ∨
  (∃ r, m = p ++ ".mesh".toList ++ r ∧
    ∀ p' r', m = p' ++ ".mesh".toList ++ r' → p.length ≤ p'.length)

/-- Size, in `char`, of the buffer that `MMG5_Set_outputSolName` reserves for
the derived name (lines 233-237): `strlen + 1` when `strstr` finds `".mesh"`
in the output mesh name, `strlen + 5` otherwise. -/
def outputSolNameBufSize (m : CStr) : Int :=
  match strstr m ".mesh".toList with
  | some _ => strlen m + 1
  | none => strlen m + 5

/-- C `strcpy` into a buffer of `size` chars: the string and its terminating
byte are written, which is defined only when they fit (`none` otherwise). -/
def strcpy (size : Int) (src : CStr) : Option CStr :=
  if strlen src + 1 ≤ size then some src else none

/-- C `strcat` onto the string `dst` held by a buffer of `size` chars: defined
only when the result and its terminating byte fit (`none` otherwise). -/
def strcat (size : Int) (dst src : CStr) : Option CStr :=
  if strlen dst + strlen src + 1 ≤ size then some (dst ++ src) else none

/-- Lines 233-243 of `MMG5_Set_outputSolName` on the reserved buffer: `calloc`
of `outputSolNameBufSize`, `strcpy` of the output mesh name, cut at `".mesh"`
(a write inside the string), `strcat` of `".sol"`.  The result is the string
held by `sol->nameout`, or `none` when a write would pass the end of the
buffer. -/
def deriveOutputSolName (m : CStr) : Option CStr :=
  let size := outputSolNameBufSize m
  match strcpy size m with
  | none => none
  | some b => strcat size (cutAtMesh b) ".sol".toList

/-! ## Facts about `strstr` -/

theorem strstr_some_spec (needle : CStr) :
    ∀ (hay : CStr) (i : Nat), strstr hay needle = some i →
      needle <+: hay.drop i ∧ ∀ j, j < i → ¬ needle <+: hay.drop j := by
  intro hay
  induction hay with
  | nil =>
    intro i h
    unfold strstr at h
    split at h
    · rename_i hp
      cases h
      exact ⟨by simpa using List.isPrefixOf_iff_prefix.mp hp, by intro j hj; omega⟩
    · cases h
  | cons c hay ih =>
    intro i h
    unfold strstr at h
    split at h
    · rename_i hp
      cases h
      exact ⟨by simpa using List.isPrefixOf_iff_prefix.mp hp, by intro j hj; omega⟩
    · rename_i hp
      cases hr : strstr hay needle with
      | none => rw [hr] at h; cases h
      | some k =>
        rw [hr] at h
        simp only [Option.map_some', Option.some.injEq] at h
        subst h
        obtain ⟨h1, h2⟩ := ih k hr
        refine ⟨by simpa using h1, ?_⟩
        intro j hj
        cases j with
        | zero =>
          intro hpre
          exact hp (List.isPrefixOf_iff_prefix.mpr (by simpa using hpre))
        | succ j =>
          have := h2 j (by omega)
          simpa using this

theorem strstr_none_spec (needle : CStr) :
    ∀ (hay : CStr), strstr hay needle = none → ∀ j, ¬ needle <+: hay.drop j := by
  intro hay
  induction hay with
  | nil =>
    intro h j
    unfold strstr at h
    split at h
    · cases h
    · rename_i hp
      intro hpre
      exact hp (List.isPrefixOf_iff_prefix.mpr (by simpa using hpre))
  | cons c hay ih =>
    intro h j
    unfold strstr at h
    split at h
    · cases h
    · rename_i hp
      cases hr : strstr hay needle with
      | some k => rw [hr] at h; cases h
      | none =>
        cases j with
        | zero =>
          intro hpre
          exact hp (List.isPrefixOf_iff_prefix.mpr (by simpa using hpre))
        | succ j => simpa using ih hr j

theorem infix_iff_prefix_drop (needle hay : CStr) :
    needle <:+: hay ↔ ∃ j, needle <+: hay.drop j := by
  constructor
  · rintro ⟨s, t, rfl⟩
    refine ⟨s.length, t, ?_⟩
    simp [List.append_assoc]
  · rintro ⟨j, t, ht⟩
    refine ⟨hay.take j, t, ?_⟩
    rw [List.append_assoc, ht, List.take_append_drop]

theorem strstr_eq_none_iff (needle hay : CStr) :
    strstr hay needle = none ↔ ¬ needle <:+: hay := by
  constructor
  · intro h hin
    obtain ⟨j, hj⟩ := (infix_iff_prefix_drop needle hay).mp hin
    exact strstr_none_spec needle hay h j hj
  · intro h
    cases hr : strstr hay needle with
    | none => rfl
    | some i =>
      exact absurd ((infix_iff_prefix_drop needle hay).mpr
        ⟨i, (strstr_some_spec needle hay i hr).1⟩) h

theorem mesh_not_prefix_short (b : CStr) (hlen : b.length < 5) (hb : b ≠ []) :
    ¬ ".mesh".toList <+: b ++ ".mesh".toList := by
  match b, hlen, hb with
  | [], _, hb => exact absurd rfl hb
  | [x], _, _ => simp [List.cons_prefix_cons]
  | [x, y], _, _ => simp [List.cons_prefix_cons]
  | [x, y, z], _, _ => simp [List.cons_prefix_cons]
  | [x, y, z, w], _, _ => simp [List.cons_prefix_cons]
  | _ :: _ :: _ :: _ :: _ :: _, hlen, _ => simp at hlen; omega

theorem strstr_append_mesh (base : CStr) (hno : ¬ ".mesh".toList <:+: base) :
    strstr (base ++ ".mesh".toList) ".mesh".toList = some base.length := by
  induction base with
  | nil => decide
  | cons c b ih =>
    have hnb : ¬ ".mesh".toList <:+: b := fun h =>
      hno (h.trans (List.suffix_cons c b).isInfix)
    have hnp : ¬ ".mesh".toList <+: (c :: b) ++ ".mesh".toList := by
      by_cases hl : (c :: b).length < 5
      · exact mesh_not_prefix_short (c :: b) hl (by simp)
      · intro hp
        have h5 : ".mesh".toList.length ≤ (c :: b).length := by
          have : ".mesh".toList.length = 5 := by decide
          omega
        have := List.prefix_of_prefix_length_le hp (List.prefix_append _ _) h5
        exact hno this.isInfix
    rw [List.cons_append] at hnp ⊢
    unfold strstr
    rw [if_neg (fun h => hnp (List.isPrefixOf_iff_prefix.mp h)), ih hnb]
    rfl

theorem cutAtMesh_append_mesh (base : CStr) (hno : ¬ ".mesh".toList <:+: base) :
    cutAtMesh (base ++ ".mesh".toList) = base := by
  unfold cutAtMesh
  rw [strstr_append_mesh base hno]
  simp

/-! ## Facts about the budget macros -/

theorem delName_memCur (mesh : MMG5_Mesh) (o : Option CStr) :
    (delName mesh o).memCur = mesh.memCur - nameBytes o := by
  cases o <;> simp [delName, _MMG5_DEL_MEM, nameBytes]

theorem delName_eq (mesh : MMG5_Mesh) (o : Option CStr) :
    delName mesh o = { mesh with memCur := mesh.memCur - nameBytes o } := by
  cases o <;> simp [delName, _MMG5_DEL_MEM, nameBytes]

theorem add_mem_fits (mesh : MMG5_Mesh) (size : Int)
    (h : mesh.memCur + size ≤ mesh.memMax) :
    _MMG5_ADD_MEM mesh size = some { mesh with memCur := mesh.memCur + size } := by
  unfold _MMG5_ADD_MEM
  rw [if_neg (by omega)]

theorem add_mem_refuses (mesh : MMG5_Mesh) (size : Int)
    (h : mesh.memMax < mesh.memCur + size) :
    _MMG5_ADD_MEM mesh size = none := by
  unfold _MMG5_ADD_MEM
  rw [if_pos (by omega)]

theorem nameBytes_pos (o : Option CStr) : 0 ≤ nameBytes o := by
  cases o <;> simp [nameBytes, strlen]
  omega

/-! ## The cut at `".mesh"` meets its specification -/

theorem beforeFirstMesh_cutAtMesh (m : CStr) : BeforeFirstMesh m (cutAtMesh m) := by
  unfold cutAtMesh
  cases hr : strstr m ".mesh".toList with
  | none =>
    exact Or.inl ⟨(strstr_eq_none_iff _ _).mp hr, rfl⟩
  | some i =>
    obtain ⟨⟨r, hr1⟩, hmin⟩ := strstr_some_spec _ m i hr
    have hi : i ≤ m.length := by
      by_contra hcon
      have hd : m.drop i = [] := List.drop_eq_nil_of_le (by omega)
      rw [hd] at hr1
      simp at hr1
    refine Or.inr ⟨r, ?_, ?_⟩
    · show m = m.take i ++ ".mesh".toList ++ r
      rw [List.append_assoc, hr1, List.take_append_drop]
    · intro p' r' hp'
      show (m.take i).length ≤ p'.length
      rw [List.length_take, Nat.min_eq_left hi]
      by_contra hcon
      refine hmin p'.length (by omega) ⟨r', ?_⟩
      rw [hp', List.append_assoc, List.drop_left]

theorem beforeFirstMesh_unique (m p : CStr) (h : BeforeFirstMesh m p) :
    p = cutAtMesh m := by
  rcases h with ⟨hno, rfl⟩ | ⟨r, hm, hmin⟩
  · unfold cutAtMesh
    rw [(strstr_eq_none_iff _ _).mpr hno]
  · rcases beforeFirstMesh_cutAtMesh m with ⟨hno, _⟩ | ⟨r2, hm2, hmin2⟩
    · exact absurd ⟨p, r, hm.symm⟩ hno
    · have h1 := hmin _ _ hm2
      have h2 := hmin2 _ _ hm
      have hlen : p.length = (cutAtMesh m).length := by omega
      have h3 : p ++ (".mesh".toList ++ r) = cutAtMesh m ++ (".mesh".toList ++ r2) := by
        rw [← List.append_assoc, ← List.append_assoc, ← hm, ← hm2]
      exact (List.append_inj h3 hlen).1

/-! ## The outcome of each setter, branch by branch -/

theorem inputMeshName_ret (mesh : MMG5_Mesh) (meshin : CStr)
    (h : admits mesh mesh.namein (inputMeshNameToStore meshin)) :
    ∃ out, MMG5_Set_inputMeshName mesh meshin =
      .ret 1 { mesh with
               memCur := mesh.memCur - nameBytes mesh.namein
                           + (strlen (inputMeshNameToStore meshin) + 1),
               namein := some (inputMeshNameToStore meshin) } out := by
  unfold MMG5_Set_inputMeshName
  simp only [delName_eq]
  by_cases hm : meshin = []
  · subst hm
    have h' : mesh.memCur - nameBytes mesh.namein + 10 * 1 ≤ mesh.memMax := by
      simpa [admits, inputMeshNameToStore, strlen] using h
    rw [if_neg (by simp [strlen]), add_mem_fits _ _ (by simpa using h')]
    exact ⟨if mesh.info.imprim > 5 ∨ mesh.info.ddebug ≠ 0 then noInputMeshName else [],
      by simp [inputMeshNameToStore, strlen]⟩
  · have hs : strlen meshin ≠ 0 := by
      simpa [strlen] using hm
    have h' : mesh.memCur - nameBytes mesh.namein + (strlen meshin + 1) * 1
        ≤ mesh.memMax := by
      simpa [admits, inputMeshNameToStore, hm] using h
    rw [if_pos hs, add_mem_fits _ _ (by simpa using h')]
    exact ⟨[], by simp [inputMeshNameToStore, hm]⟩

theorem inputMeshName_exit (mesh : MMG5_Mesh) (meshin : CStr)
    (h : refuses mesh mesh.namein (inputMeshNameToStore meshin)) :
    MMG5_Set_inputMeshName mesh meshin =
      .exit { mesh with memCur := mesh.memCur - nameBytes mesh.namein,
                        namein := none } ["  Exit program.\n"] := by
  unfold MMG5_Set_inputMeshName
  simp only [delName_eq]
  by_cases hm : meshin = []
  · subst hm
    have h' : mesh.memMax < mesh.memCur - nameBytes mesh.namein + 10 * 1 := by
      simpa [refuses, inputMeshNameToStore, strlen] using h
    rw [if_neg (by simp [strlen]), add_mem_refuses _ _ (by simpa using h')]
  · have hs : strlen meshin ≠ 0 := by
      simpa [strlen] using hm
    have h' : mesh.memMax < mesh.memCur - nameBytes mesh.namein
        + (strlen meshin + 1) * 1 := by
      simpa [refuses, inputMeshNameToStore, hm] using h
    rw [if_pos hs, add_mem_refuses _ _ (by simpa using h')]

theorem strlen_ne_zero (s : CStr) : strlen s ≠ 0 ↔ s ≠ [] := by
  simp [strlen]

theorem inputSolName_ret (mesh : MMG5_Mesh) (sol : MMG5_Sol) (solin new : CStr)
    (hn : inputSolNameToStore mesh.namein solin = some new)
    (h : admits mesh sol.namein new) :
    MMG5_Set_inputSolName mesh sol solin =
      .ret 1 ({ mesh with memCur := mesh.memCur - nameBytes sol.namein
                            + (strlen new + 1) },
              { sol with namein := some new }) [] := by
  have h' : mesh.memCur - nameBytes sol.namein + (strlen new + 1) * 1
      ≤ mesh.memMax := by simpa [admits] using h
  unfold MMG5_Set_inputSolName
  simp only [delName_eq, strlen_ne_zero]
  unfold inputSolNameToStore at hn
  by_cases hs : solin = []
  · rw [if_neg (not_not.mpr hs)] at hn ⊢
    cases hmn : mesh.namein with
    | none => rw [hmn] at hn; cases hn
    | some m =>
      rw [hmn] at hn
      by_cases hm : m = []
      · simp only [if_neg (not_not.mpr hm), Option.some.injEq] at hn ⊢
        subst hn
        rw [add_mem_fits _ _ (by simpa [strlen] using h')]
        simp [strlen]
      · simp only [if_pos hm, Option.some.injEq] at hn ⊢
        subst hn
        rw [add_mem_fits _ _ (by simpa using h')]
        simp
  · rw [if_pos hs] at hn ⊢
    cases hn
    rw [add_mem_fits _ _ (by simpa using h')]
    simp

theorem inputSolName_exit (mesh : MMG5_Mesh) (sol : MMG5_Sol) (solin new : CStr)
    (hn : inputSolNameToStore mesh.namein solin = some new)
    (h : refuses mesh sol.namein new) :
    ∃ o, MMG5_Set_inputSolName mesh sol solin =
      .exit ({ mesh with memCur := mesh.memCur - nameBytes sol.namein },
             { sol with namein := o }) ["  Exit program.\n"] ∧
        (o = none ∨ o = some new) := by
  have h' : mesh.memMax < mesh.memCur - nameBytes sol.namein + (strlen new + 1) * 1 := by
    simpa [refuses] using h
  unfold MMG5_Set_inputSolName
  simp only [delName_eq, strlen_ne_zero]
  unfold inputSolNameToStore at hn
  by_cases hs : solin = []
  · rw [if_neg (not_not.mpr hs)] at hn ⊢
    cases hmn : mesh.namein with
    | none => rw [hmn] at hn; cases hn
    | some m =>
      rw [hmn] at hn
      by_cases hm : m = []
      · simp only [if_neg (not_not.mpr hm), Option.some.injEq] at hn ⊢
        subst hn
        rw [add_mem_refuses _ _ (by simpa [strlen] using h')]
        exact ⟨none, by simp, Or.inl rfl⟩
      · simp only [if_pos hm, Option.some.injEq] at hn ⊢
        subst hn
        rw [add_mem_refuses _ _ (by simpa using h')]
        exact ⟨some (cutAtMesh m), by simp, Or.inr rfl⟩
  · rw [if_pos hs] at hn ⊢
    cases hn
    rw [add_mem_refuses _ _ (by simpa using h')]
    exact ⟨none, by simp, Or.inl rfl⟩

theorem inputSolName_fault (mesh : MMG5_Mesh) (sol : MMG5_Sol)
    (hm : mesh.namein = none) :
    MMG5_Set_inputSolName mesh sol [] = .fault := by
  unfold MMG5_Set_inputSolName
  simp only [delName_eq, strlen_ne_zero]
  rw [if_neg (by simp)]
  simp only [hm]

theorem outputSolName_ret (mesh : MMG5_Mesh) (sol : MMG5_Sol) (solout new : CStr)
    (hn : outputSolNameToStore mesh.nameout solout = some new)
    (h : admits mesh sol.nameout new) :
    MMG5_Set_outputSolName mesh sol solout =
      .ret 1 ({ mesh with memCur := mesh.memCur - nameBytes sol.nameout
                            + (strlen new + 1) },
              { sol with nameout := some new }) [] := by
  have h' : mesh.memCur - nameBytes sol.nameout + (strlen new + 1) * 1
      ≤ mesh.memMax := by simpa [admits] using h
  unfold MMG5_Set_outputSolName
  simp only [delName_eq, strlen_ne_zero]
  unfold outputSolNameToStore at hn
  by_cases hs : solout = []
  · rw [if_neg (not_not.mpr hs)] at hn ⊢
    cases hmn : mesh.nameout with
    | none => rw [hmn] at hn; cases hn
    | some m =>
      rw [hmn] at hn
      by_cases hm : m = []
      · simp only [if_neg (not_not.mpr hm)] at hn
        cases hn
      · simp only [if_pos hm, Option.some.injEq] at hn ⊢
        subst hn
        rw [add_mem_fits _ _ (by simpa using h')]
        simp
  · rw [if_pos hs] at hn ⊢
    cases hn
    rw [add_mem_fits _ _ (by simpa using h')]
    simp

theorem outputSolName_exit (mesh : MMG5_Mesh) (sol : MMG5_Sol) (solout new : CStr)
    (hn : outputSolNameToStore mesh.nameout solout = some new)
    (h : refuses mesh sol.nameout new) :
    ∃ o, MMG5_Set_outputSolName mesh sol solout =
      .exit ({ mesh with memCur := mesh.memCur - nameBytes sol.nameout },
             { sol with nameout := o }) ["  Exit program.\n"] ∧
        (o = none ∨ o = some new) := by
  have h' : mesh.memMax < mesh.memCur - nameBytes sol.nameout + (strlen new + 1) * 1 := by
    simpa [refuses] using h
  unfold MMG5_Set_outputSolName
  simp only [delName_eq, strlen_ne_zero]
  unfold outputSolNameToStore at hn
  by_cases hs : solout = []
  · rw [if_neg (not_not.mpr hs)] at hn ⊢
    cases hmn : mesh.nameout with
    | none => rw [hmn] at hn; cases hn
    | some m =>
      rw [hmn] at hn
      by_cases hm : m = []
      · simp only [if_neg (not_not.mpr hm)] at hn
        cases hn
      · simp only [if_pos hm, Option.some.injEq] at hn ⊢
        subst hn
        rw [add_mem_refuses _ _ (by simpa using h')]
        exact ⟨some (cutAtMesh m ++ ".sol".toList), by simp, Or.inr rfl⟩
  · rw [if_pos hs] at hn ⊢
    cases hn
    rw [add_mem_refuses _ _ (by simpa using h')]
    exact ⟨none, by simp, Or.inl rfl⟩

theorem outputSolName_fault (mesh : MMG5_Mesh) (sol : MMG5_Sol)
    (hm : mesh.nameout = none) :
    MMG5_Set_outputSolName mesh sol [] = .fault := by
  unfold MMG5_Set_outputSolName
  simp only [delName_eq, strlen_ne_zero]
  rw [if_neg (by simp)]
  simp only [hm]

theorem outputSolName_missing (mesh : MMG5_Mesh) (sol : MMG5_Sol)
    (hm : mesh.nameout = some []) :
    MMG5_Set_outputSolName mesh sol [] =
      .ret 0 ({ mesh with memCur := mesh.memCur - nameBytes sol.nameout },
              { sol with nameout := none }) noOutputMeshName := by
  unfold MMG5_Set_outputSolName
  simp only [delName_eq, strlen_ne_zero]
  rw [if_neg (by simp)]
  simp only [hm]
  rw [if_neg (by simp)]

theorem free_names_memCur (mesh : MMG5_Mesh) (met : MMG5_Sol) :
    MMG5_Free_names mesh (some met) =
      ({ mesh with memCur := mesh.memCur - nameBytes mesh.nameout
                     - nameBytes mesh.namein - nameBytes met.namein
                     - nameBytes met.nameout,
                   namein := none, nameout := none },
       some { namein := none, nameout := none }) := by
  unfold MMG5_Free_names
  simp only [delName_eq]

theorem free_names_null_met (mesh : MMG5_Mesh) :
    MMG5_Free_names mesh none =
      ({ mesh with memCur := mesh.memCur - nameBytes mesh.nameout
                     - nameBytes mesh.namein,
                   namein := none, nameout := none }, none) := by
  unfold MMG5_Free_names
  simp only [delName_eq]

/-! ## Inversion: what a returning call has done -/

theorem inputSolNameToStore_none (mname : Option CStr) (solin : CStr)
    (h : inputSolNameToStore mname solin = none) : solin = [] ∧ mname = none := by
  unfold inputSolNameToStore at h
  by_cases hs : solin = []
  · rw [if_neg (not_not.mpr hs)] at h
    cases mname with
    | none => exact ⟨hs, rfl⟩
    | some m =>
      by_cases hm : m = []
      · simp [hm] at h
      · simp [hm] at h
  · rw [if_pos hs] at h
    cases h

theorem outputSolNameToStore_none (mname : Option CStr) (solout : CStr)
    (h : outputSolNameToStore mname solout = none) :
    solout = [] ∧ (mname = none ∨ mname = some []) := by
  unfold outputSolNameToStore at h
  by_cases hs : solout = []
  · rw [if_neg (not_not.mpr hs)] at h
    cases mname with
    | none => exact ⟨hs, Or.inl rfl⟩
    | some m =>
      by_cases hm : m = []
      · exact ⟨hs, Or.inr (by rw [hm])⟩
      · simp [hm] at h
  · rw [if_pos hs] at h
    cases h

theorem inputMeshName_inv (mesh m' : MMG5_Mesh) (meshin : CStr) (code : Int)
    (out : List String)
    (h : MMG5_Set_inputMeshName mesh meshin = .ret code m' out) :
    code = 1 ∧ admits mesh mesh.namein (inputMeshNameToStore meshin) ∧
      m' = { mesh with
             memCur := mesh.memCur - nameBytes mesh.namein
                         + (strlen (inputMeshNameToStore meshin) + 1),
             namein := some (inputMeshNameToStore meshin) } := by
  by_cases ha : admits mesh mesh.namein (inputMeshNameToStore meshin)
  · obtain ⟨out0, h0⟩ := inputMeshName_ret mesh meshin ha
    rw [h0] at h
    injection h with h1 h2 h3
    exact ⟨h1.symm, ha, h2.symm⟩
  · rw [inputMeshName_exit mesh meshin (not_le.mp ha)] at h
    cases h

theorem inputSolName_inv (mesh m' : MMG5_Mesh) (sol s' : MMG5_Sol) (solin : CStr)
    (code : Int) (out : List String)
    (h : MMG5_Set_inputSolName mesh sol solin = .ret code (m', s') out) :
    code = 1 ∧ ∃ new, inputSolNameToStore mesh.namein solin = some new ∧
      admits mesh sol.namein new ∧
      m' = { mesh with memCur := mesh.memCur - nameBytes sol.namein
                         + (strlen new + 1) } ∧
      s' = { sol with namein := some new } := by
  cases hn : inputSolNameToStore mesh.namein solin with
  | none =>
    obtain ⟨hs, hm⟩ := inputSolNameToStore_none _ _ hn
    subst hs
    rw [inputSolName_fault mesh sol hm] at h
    cases h
  | some new =>
    by_cases ha : admits mesh sol.namein new
    · rw [inputSolName_ret mesh sol solin new hn ha] at h
      injection h with h1 h2 h3
      injection h2 with h4 h5
      exact ⟨h1.symm, new, rfl, ha, h4.symm, h5.symm⟩
    · obtain ⟨o, ho, _⟩ := inputSolName_exit mesh sol solin new hn (not_le.mp ha)
      rw [ho] at h
      cases h

theorem outputSolName_inv (mesh m' : MMG5_Mesh) (sol s' : MMG5_Sol) (solout : CStr)
    (code : Int) (out : List String)
    (h : MMG5_Set_outputSolName mesh sol solout = .ret code (m', s') out) :
    (code = 1 ∧ ∃ new, outputSolNameToStore mesh.nameout solout = some new ∧
      admits mesh sol.nameout new ∧
      m' = { mesh with memCur := mesh.memCur - nameBytes sol.nameout
                         + (strlen new + 1) } ∧
      s' = { sol with nameout := some new }) ∨
    (code = 0 ∧ solout = [] ∧ mesh.nameout = some [] ∧
      m' = { mesh with memCur := mesh.memCur - nameBytes sol.nameout } ∧
      s' = { sol with nameout := none }) := by
  cases hn : outputSolNameToStore mesh.nameout solout with
  | none =>
    obtain ⟨hs, hm | hm⟩ := outputSolNameToStore_none _ _ hn
    · subst hs
      rw [outputSolName_fault mesh sol hm] at h
      cases h
    · subst hs
      rw [outputSolName_missing mesh sol hm] at h
      injection h with h1 h2 h3
      injection h2 with h4 h5
      exact Or.inr ⟨h1.symm, rfl, hm, h4.symm, h5.symm⟩
  | some new =>
    by_cases ha : admits mesh sol.nameout new
    · rw [outputSolName_ret mesh sol solout new hn ha] at h
      injection h with h1 h2 h3
      injection h2 with h4 h5
      exact Or.inl ⟨h1.symm, new, rfl, ha, h4.symm, h5.symm⟩
    · obtain ⟨o, ho, _⟩ := outputSolName_exit mesh sol solout new hn (not_le.mp ha)
      rw [ho] at h
      cases h

/-! ## The state at exit, branch by branch -/

theorem inputSolName_exit_explicit (mesh : MMG5_Mesh) (sol : MMG5_Sol) (solin : CStr)
    (hs : solin ≠ []) (h : refuses mesh sol.namein solin) :
    MMG5_Set_inputSolName mesh sol solin =
      .exit ({ mesh with memCur := mesh.memCur - nameBytes sol.namein },
             { sol with namein := none }) ["  Exit program.\n"] := by
  have h' : mesh.memMax < mesh.memCur - nameBytes sol.namein + (strlen solin + 1) * 1 := by
    simpa [refuses] using h
  unfold MMG5_Set_inputSolName
  simp only [delName_eq, strlen_ne_zero]
  rw [if_pos hs, add_mem_refuses _ _ (by simpa using h')]

theorem inputSolName_exit_default (mesh : MMG5_Mesh) (sol : MMG5_Sol)
    (hm : mesh.namein = some []) (h : refuses mesh sol.namein "mesh.sol".toList) :
    MMG5_Set_inputSolName mesh sol [] =
      .exit ({ mesh with memCur := mesh.memCur - nameBytes sol.namein },
             { sol with namein := none }) ["  Exit program.\n"] := by
  have h' : mesh.memMax < mesh.memCur - nameBytes sol.namein + 9 * 1 := by
    simpa [refuses, strlen] using h
  unfold MMG5_Set_inputSolName
  simp only [delName_eq, strlen_ne_zero]
  rw [if_neg (by simp)]
  simp only [hm]
  rw [if_neg (by simp), add_mem_refuses _ _ (by simpa using h')]

theorem inputSolName_exit_derived (mesh : MMG5_Mesh) (sol : MMG5_Sol) (m : CStr)
    (hm : mesh.namein = some m) (hne : m ≠ [])
    (h : refuses mesh sol.namein (cutAtMesh m)) :
    MMG5_Set_inputSolName mesh sol [] =
      .exit ({ mesh with memCur := mesh.memCur - nameBytes sol.namein },
             { sol with namein := some (cutAtMesh m) }) ["  Exit program.\n"] := by
  have h' : mesh.memMax < mesh.memCur - nameBytes sol.namein
      + (strlen (cutAtMesh m) + 1) * 1 := by
    simpa [refuses] using h
  unfold MMG5_Set_inputSolName
  simp only [delName_eq, strlen_ne_zero]
  rw [if_neg (by simp)]
  simp only [hm]
  rw [if_pos hne, add_mem_refuses _ _ (by simpa using h')]

theorem outputSolName_exit_explicit (mesh : MMG5_Mesh) (sol : MMG5_Sol)
    (solout : CStr) (hs : solout ≠ []) (h : refuses mesh sol.nameout solout) :
    MMG5_Set_outputSolName mesh sol solout =
      .exit ({ mesh with memCur := mesh.memCur - nameBytes sol.nameout },
             { sol with nameout := none }) ["  Exit program.\n"] := by
  have h' : mesh.memMax < mesh.memCur - nameBytes sol.nameout
      + (strlen solout + 1) * 1 := by
    simpa [refuses] using h
  unfold MMG5_Set_outputSolName
  simp only [delName_eq, strlen_ne_zero]
  rw [if_pos hs, add_mem_refuses _ _ (by simpa using h')]

theorem outputSolName_exit_derived (mesh : MMG5_Mesh) (sol : MMG5_Sol) (m : CStr)
    (hm : mesh.nameout = some m) (hne : m ≠ [])
    (h : refuses mesh sol.nameout (cutAtMesh m ++ ".sol".toList)) :
    MMG5_Set_outputSolName mesh sol [] =
      .exit ({ mesh with memCur := mesh.memCur - nameBytes sol.nameout },
             { sol with nameout := some (cutAtMesh m ++ ".sol".toList) })
        ["  Exit program.\n"] := by
  have h' : mesh.memMax < mesh.memCur - nameBytes sol.nameout
      + (strlen (cutAtMesh m ++ ".sol".toList) + 1) * 1 := by
    simpa [refuses] using h
  unfold MMG5_Set_outputSolName
  simp only [delName_eq, strlen_ne_zero]
  rw [if_neg (by simp)]
  simp only [hm]
  rw [if_pos hne, add_mem_refuses _ _ (by simpa using h')]

/-! ## The derived output name when the extension is the only `".mesh"` -/

/-- When the output mesh name is `base ++ ".mesh"` and `base` itself contains
no `".mesh"`, `MMG5_Set_outputSolName` called with an empty string and a budget
that admits the name returns 1 and stores `base ++ ".sol"`. -/
theorem outputSolName_of_extension (mesh : MMG5_Mesh) (sol : MMG5_Sol) (base : CStr)
    (hname : mesh.nameout = some (base ++ ".mesh".toList))
    (hno : ¬ ".mesh".toList <:+: base)
    (hfit : mesh.memCur - nameBytes sol.nameout
              + (strlen (base ++ ".sol".toList) + 1) ≤ mesh.memMax) :
    MMG5_Set_outputSolName mesh sol [] =
      .ret 1 ({ mesh with memCur := mesh.memCur - nameBytes sol.nameout
                            + (strlen (base ++ ".sol".toList) + 1) },
              { sol with nameout := some (base ++ ".sol".toList) }) [] := by
  have hlen : strlen (base ++ ".mesh".toList) ≠ 0 := by
    simp [strlen]
    omega
  unfold MMG5_Set_outputSolName
  simp only [delName_eq, hname, cutAtMesh_append_mesh base hno]
  rw [if_neg (by simp [strlen]), if_pos hlen, add_mem_fits _ _ (by simpa using hfit)]
  simp

/-- The scenario of the specification: `"part.mesh"` gives `"part.sol"`. -/
theorem outputSolName_of_extension_part :
    MMG5_Set_outputSolName
        { zeroMesh with memMax := 100, nameout := some "part.mesh".toList }
        zeroSol [] =
      .ret 1 ({ zeroMesh with memMax := 100, memCur := 9,
                              nameout := some "part.mesh".toList },
              { namein := none, nameout := some "part.sol".toList }) [] :=
  outputSolName_of_extension
    { zeroMesh with memMax := 100, nameout := some "part.mesh".toList }
    zeroSol "part".toList rfl (by decide) (by decide)

/-! ## The claims -/

/-- C1 (evaluation at the failing input): with the output mesh name
`"run.meshes/part.mesh"`, which is `base ++ ".mesh"` for
`base = "run.meshes/part"`, and a budget that admits the name,
`MMG5_Set_outputSolName` called with an empty string returns 1 but stores
`"run.sol"`: the name is cut at the `".mesh"` of the directory name and not at
the extension, so the stored name is not `base ++ ".sol"`. -/
theorem C1_outputSolName_cut_in_directory :
    MMG5_Set_outputSolName
        { zeroMesh with memMax := 100,
                        nameout := some ("run.meshes/part".toList ++ ".mesh".toList) }
        zeroSol [] =
      .ret 1 ({ zeroMesh with memMax := 100, memCur := 8,
                              nameout := some "run.meshes/part.mesh".toList },
              { namein := none, nameout := some "run.sol".toList }) [] ∧
    "run.sol".toList ≠ "run.meshes/part".toList ++ ".sol".toList := by
  decide

/-- C2 (evaluation at the failing input): when the output mesh name is a null
pointer, `MMG5_Set_outputSolName` called with an empty string takes `strlen` of
that null pointer and does not return 0; only when the output mesh name is the
empty string does it release the old solution name, print the error and
return 0. -/
theorem C2_outputSolName_no_mesh_name (mesh : MMG5_Mesh) (sol : MMG5_Sol) :
    MMG5_Set_outputSolName { mesh with nameout := none } sol [] = .fault ∧
    MMG5_Set_outputSolName { mesh with nameout := some [] } sol [] =
      .ret 0 ({ mesh with nameout := some [],
                          memCur := mesh.memCur - nameBytes sol.nameout },
              { sol with nameout := none }) noOutputMeshName :=
  ⟨outputSolName_fault _ sol rfl, outputSolName_missing _ sol rfl⟩

/-- C3: when the budget admits the new name, `MMG5_Set_inputMeshName` returns 1
and the mesh input name is `meshin` when `meshin` is non-empty and
`"mesh.mesh"` when it is empty, whatever was stored before; the state left
is the same for every value of the verbosity and debug settings. -/
theorem C3_inputMeshName_stored (mesh : MMG5_Mesh) (meshin : CStr)
    (hfit : admits mesh mesh.namein (inputMeshNameToStore meshin)) :
    ∃ m' out, MMG5_Set_inputMeshName mesh meshin = .ret 1 m' out ∧
      (meshin ≠ [] → m'.namein = some meshin) ∧
      (meshin = [] → m'.namein = some "mesh.mesh".toList) ∧
      ∀ info', ∃ out', MMG5_Set_inputMeshName { mesh with info := info' } meshin
        = .ret 1 { m' with info := info' } out' := by
  obtain ⟨out, h⟩ := inputMeshName_ret mesh meshin hfit
  refine ⟨_, out, h, ?_, ?_, ?_⟩
  · intro hne
    simp [inputMeshNameToStore, hne]
  · intro he
    simp [inputMeshNameToStore, he]
  · intro info'
    obtain ⟨out', h'⟩ := inputMeshName_ret { mesh with info := info' } meshin hfit
    exact ⟨out', h'⟩

/-- C3 witness: replacing `"old.mesh"` by the default on an empty argument. -/
theorem C3_inputMeshName_stored_witness :
    ∃ m' out, MMG5_Set_inputMeshName
        { zeroMesh with memMax := 10, memCur := 9, namein := some "old.mesh".toList } []
        = .ret 1 m' out ∧
      ([] ≠ ([] : CStr) → m'.namein = some []) ∧
      (([] : CStr) = [] → m'.namein = some "mesh.mesh".toList) ∧
      ∀ info', ∃ out', MMG5_Set_inputMeshName
        { ({ zeroMesh with memMax := 10, memCur := 9,
                            namein := some "old.mesh".toList } : MMG5_Mesh)
          with info := info' } []
        = .ret 1 { m' with info := info' } out' :=
  C3_inputMeshName_stored
    { zeroMesh with memMax := 10, memCur := 9, namein := some "old.mesh".toList } []
    (by decide)

/-- C4 (as stated, refuted): in the state left by `MMG5_Set_inputMeshName(mesh,"")`,
where the mesh input name is `"mesh.mesh"`, `MMG5_Set_inputSolName` called with
an empty string stores `"mesh"`, not `"mesh.sol"`. -/
theorem C4_counterexample :
    MMG5_Set_inputSolName
        { zeroMesh with memMax := 100, memCur := 10, namein := some "mesh.mesh".toList }
        zeroSol [] =
      .ret 1 ({ zeroMesh with memMax := 100, memCur := 15,
                              namein := some "mesh.mesh".toList },
              { namein := some "mesh".toList, nameout := none }) [] ∧
    "mesh".toList ≠ "mesh.sol".toList := by
  decide

/-- C4 (amended): `MMG5_Set_inputSolName` called with an empty string, the
budget admitting the result, returns 1 and stores the fixed default
`"mesh.sol"` when the mesh input name is the empty string.  With a non-empty
mesh input name the stored name is derived from that name: it is `base` when
the mesh input name is `base ++ ".mesh"` and `base` contains no `".mesh"`, and
the mesh input name itself when that name contains no `".mesh"`. -/
theorem C4_inputSolName_empty (mesh : MMG5_Mesh) (sol : MMG5_Sol) :
    (mesh.namein = some [] → admits mesh sol.namein "mesh.sol".toList →
      MMG5_Set_inputSolName mesh sol [] =
        .ret 1 ({ mesh with memCur := mesh.memCur - nameBytes sol.namein
                              + (strlen "mesh.sol".toList + 1) },
                { sol with namein := some "mesh.sol".toList }) []) ∧
    (∀ base, mesh.namein = some (base ++ ".mesh".toList) →
      ¬ ".mesh".toList <:+: base → admits mesh sol.namein base →
      MMG5_Set_inputSolName mesh sol [] =
        .ret 1 ({ mesh with memCur := mesh.memCur - nameBytes sol.namein
                              + (strlen base + 1) },
                { sol with namein := some base }) []) ∧
    (∀ m, mesh.namein = some m → m ≠ [] →
      ¬ ".mesh".toList <:+: m → admits mesh sol.namein m →
      MMG5_Set_inputSolName mesh sol [] =
        .ret 1 ({ mesh with memCur := mesh.memCur - nameBytes sol.namein
                              + (strlen m + 1) },
                { sol with namein := some m }) []) := by
  refine ⟨?_, ?_, ?_⟩
  · intro hm ha
    exact inputSolName_ret mesh sol [] _ (by simp [inputSolNameToStore, hm]) ha
  · intro base hm hno ha
    have hne : base ++ ".mesh".toList ≠ [] := by simp
    have hn : inputSolNameToStore mesh.namein [] = some base := by
      rw [hm]
      simp only [inputSolNameToStore, ne_eq, not_true_eq_false, if_false, hne,
        not_false_eq_true, if_true, cutAtMesh_append_mesh base hno]
    exact inputSolName_ret mesh sol [] base hn ha
  · intro m hm hne hno ha
    have hc : cutAtMesh m = m := by
      unfold cutAtMesh
      rw [(strstr_eq_none_iff _ _).mpr hno]
    have hn : inputSolNameToStore mesh.namein [] = some m := by
      rw [hm]
      simp only [inputSolNameToStore, ne_eq, not_true_eq_false, if_false, hne,
        not_false_eq_true, if_true, hc]
    exact inputSolName_ret mesh sol [] m hn ha

/-- C4 witness: the empty mesh input name gives `"mesh.sol"`, `"cube.mesh"`
gives `"cube"`, and `"mesh.sol"` (no `".mesh"` in it) gives `"mesh.sol"`. -/
theorem C4_inputSolName_empty_witness :
    MMG5_Set_inputSolName { zeroMesh with memMax := 100, namein := some [] }
        zeroSol [] =
      .ret 1 ({ zeroMesh with memMax := 100, memCur := 9, namein := some [] },
              { namein := some "mesh.sol".toList, nameout := none }) [] ∧
    MMG5_Set_inputSolName
        { zeroMesh with memMax := 100, memCur := 10,
                        namein := some "cube.mesh".toList }
        zeroSol [] =
      .ret 1 ({ zeroMesh with memMax := 100, memCur := 15,
                              namein := some "cube.mesh".toList },
              { namein := some "cube".toList, nameout := none }) [] ∧
    MMG5_Set_inputSolName
        { zeroMesh with memMax := 100, memCur := 9,
                        namein := some "mesh.sol".toList }
        zeroSol [] =
      .ret 1 ({ zeroMesh with memMax := 100, memCur := 18,
                              namein := some "mesh.sol".toList },
              { namein := some "mesh.sol".toList, nameout := none }) [] :=
  ⟨(C4_inputSolName_empty { zeroMesh with memMax := 100, namein := some [] }
      zeroSol).1 rfl (by decide),
   (C4_inputSolName_empty
      { zeroMesh with memMax := 100, memCur := 10,
                      namein := some "cube.mesh".toList }
      zeroSol).2.1 "cube".toList rfl (by decide) (by decide),
   (C4_inputSolName_empty
      { zeroMesh with memMax := 100, memCur := 9,
                      namein := some "mesh.sol".toList }
      zeroSol).2.2 "mesh.sol".toList rfl (by decide) (by decide) (by decide)⟩

/-- C5 (as stated, refuted): with `memMax = 4`, `memCur = 4` and the stored
input name `"abc"`, asking `MMG5_Set_inputMeshName` for `"abcdefgh"` exceeds the
budget; the call ends with the old name released and `memCur = 0`, a state
different from the one before the call. -/
theorem C5_counterexample :
    MMG5_Set_inputMeshName
        { zeroMesh with memMax := 4, memCur := 4, namein := some "abc".toList }
        "abcdefgh".toList =
      .exit { zeroMesh with memMax := 4, memCur := 0, namein := none }
        ["  Exit program.\n"] ∧
    ({ zeroMesh with memMax := 4, memCur := 0, namein := none } : MMG5_Mesh) ≠
      { zeroMesh with memMax := 4, memCur := 4, namein := some "abc".toList } := by
  decide

/-- C5 (amended): when the budget refuses the new name, each name setter ends
the program after having released the previously stored name: in the state at
that point `memCur` is its former value less the bytes of the old name, the
refused request is not charged, `memMax` and the three other names are as
before.  The name being set is absent when the new name is the argument or a
fixed default, and is the derived name (not charged) when the new name is
derived from a non-empty mesh name. -/
theorem C5_budget_failure_state (mesh : MMG5_Mesh) (sol : MMG5_Sol) :
    (∀ meshin, refuses mesh mesh.namein (inputMeshNameToStore meshin) →
      MMG5_Set_inputMeshName mesh meshin =
        .exit { mesh with memCur := mesh.memCur - nameBytes mesh.namein,
                          namein := none } ["  Exit program.\n"]) ∧
    (∀ solin, solin ≠ [] → refuses mesh sol.namein solin →
      MMG5_Set_inputSolName mesh sol solin =
        .exit ({ mesh with memCur := mesh.memCur - nameBytes sol.namein },
               { sol with namein := none }) ["  Exit program.\n"]) ∧
    (mesh.namein = some [] → refuses mesh sol.namein "mesh.sol".toList →
      MMG5_Set_inputSolName mesh sol [] =
        .exit ({ mesh with memCur := mesh.memCur - nameBytes sol.namein },
               { sol with namein := none }) ["  Exit program.\n"]) ∧
    (∀ m, mesh.namein = some m → m ≠ [] →
      refuses mesh sol.namein (cutAtMesh m) →
      MMG5_Set_inputSolName mesh sol [] =
        .exit ({ mesh with memCur := mesh.memCur - nameBytes sol.namein },
               { sol with namein := some (cutAtMesh m) }) ["  Exit program.\n"]) ∧
    (∀ solout, solout ≠ [] → refuses mesh sol.nameout solout →
      MMG5_Set_outputSolName mesh sol solout =
        .exit ({ mesh with memCur := mesh.memCur - nameBytes sol.nameout },
               { sol with nameout := none }) ["  Exit program.\n"]) ∧
    (∀ m, mesh.nameout = some m → m ≠ [] →
      refuses mesh sol.nameout (cutAtMesh m ++ ".sol".toList) →
      MMG5_Set_outputSolName mesh sol [] =
        .exit ({ mesh with memCur := mesh.memCur - nameBytes sol.nameout },
               { sol with nameout := some (cutAtMesh m ++ ".sol".toList) })
          ["  Exit program.\n"]) :=
  ⟨fun meshin h => inputMeshName_exit mesh meshin h,
   fun solin hs h => inputSolName_exit_explicit mesh sol solin hs h,
   fun hm h => inputSolName_exit_default mesh sol hm h,
   fun m hm hne h => inputSolName_exit_derived mesh sol m hm hne h,
   fun solout hs h => outputSolName_exit_explicit mesh sol solout hs h,
   fun m hm hne h => outputSolName_exit_derived mesh sol m hm hne h⟩

/-- C5 witness: a refused explicit input solution name leaves the name absent
and `memCur` reduced from 6 to 0; a refused derivation from `"cube.mesh"`
leaves the derived `"cube"` in place, not charged; a refused derivation from
`"part.mesh"` leaves `"part.sol"` as output solution name. -/
theorem C5_budget_failure_state_witness :
    MMG5_Set_inputSolName
        { zeroMesh with memMax := 6, memCur := 6 }
        { namein := some "a.sol".toList, nameout := none } "longer.sol".toList =
      .exit ({ zeroMesh with memMax := 6,
                             memCur := 6 - nameBytes (some "a.sol".toList) },
             { namein := none, nameout := none }) ["  Exit program.\n"] ∧
    MMG5_Set_inputSolName
        { zeroMesh with memMax := 12, memCur := 10,
                        namein := some "cube.mesh".toList }
        zeroSol [] =
      .exit ({ zeroMesh with memMax := 12, memCur := 10 - nameBytes none,
                             namein := some "cube.mesh".toList },
             { namein := some (cutAtMesh "cube.mesh".toList), nameout := none })
        ["  Exit program.\n"] ∧
    MMG5_Set_outputSolName
        { zeroMesh with memMax := 12, memCur := 10,
                        nameout := some "part.mesh".toList }
        zeroSol [] =
      .exit ({ zeroMesh with memMax := 12, memCur := 10 - nameBytes none,
                             nameout := some "part.mesh".toList },
             { namein := none,
               nameout := some (cutAtMesh "part.mesh".toList ++ ".sol".toList) })
        ["  Exit program.\n"] :=
  ⟨(C5_budget_failure_state { zeroMesh with memMax := 6, memCur := 6 }
      { namein := some "a.sol".toList, nameout := none }).2.1
      "longer.sol".toList (by decide) (by decide),
   (C5_budget_failure_state
      { zeroMesh with memMax := 12, memCur := 10,
                      namein := some "cube.mesh".toList }
      zeroSol).2.2.2.1 "cube.mesh".toList rfl (by decide) (by decide),
   (C5_budget_failure_state
      { zeroMesh with memMax := 12, memCur := 10,
                      nameout := some "part.mesh".toList }
      zeroSol).2.2.2.2.2 "part.mesh".toList rfl (by decide) (by decide)⟩

/-- C6 (as stated, refuted): with `memMax = 3` the explicit output solution
name `"out.sol"` does not fit; the outcome of `MMG5_Set_outputSolName` is the
end of the program, and no value is returned to the caller. -/
theorem C6_counterexample :
    MMG5_Set_outputSolName { zeroMesh with memMax := 3 } zeroSol "out.sol".toList =
      .exit ({ zeroMesh with memMax := 3 }, zeroSol) ["  Exit program.\n"] ∧
    ∀ code st out,
      MMG5_Set_outputSolName { zeroMesh with memMax := 3 } zeroSol "out.sol".toList
        ≠ .ret code st out := by
  have h : MMG5_Set_outputSolName { zeroMesh with memMax := 3 } zeroSol "out.sol".toList =
      .exit ({ zeroMesh with memMax := 3 }, zeroSol) ["  Exit program.\n"] := by
    decide
  refine ⟨h, ?_⟩
  intro code st out hc
  rw [h] at hc
  cases hc

/-- C6 (amended): when the budget refuses the growth needed to store a name,
each name setter prints `Exit program.` and ends the program with
`exit(EXIT_FAILURE)`; it does not return to its caller. -/
theorem C6_budget_failure_exits (mesh : MMG5_Mesh) (sol : MMG5_Sol) :
    (∀ meshin, refuses mesh mesh.namein (inputMeshNameToStore meshin) →
      ∃ st, MMG5_Set_inputMeshName mesh meshin = .exit st ["  Exit program.\n"]) ∧
    (∀ solin new, inputSolNameToStore mesh.namein solin = some new →
      refuses mesh sol.namein new →
      ∃ st, MMG5_Set_inputSolName mesh sol solin = .exit st ["  Exit program.\n"]) ∧
    (∀ solout new, outputSolNameToStore mesh.nameout solout = some new →
      refuses mesh sol.nameout new →
      ∃ st, MMG5_Set_outputSolName mesh sol solout = .exit st ["  Exit program.\n"]) := by
  refine ⟨fun meshin h => ⟨_, inputMeshName_exit mesh meshin h⟩, ?_, ?_⟩
  · intro solin new hn h
    obtain ⟨o, ho, _⟩ := inputSolName_exit mesh sol solin new hn h
    exact ⟨_, ho⟩
  · intro solout new hn h
    obtain ⟨o, ho, _⟩ := outputSolName_exit mesh sol solout new hn h
    exact ⟨_, ho⟩

/-- C6 witness: a derived output solution name that does not fit. -/
theorem C6_budget_failure_exits_witness :
    ∃ st, MMG5_Set_outputSolName
        { zeroMesh with memMax := 12, memCur := 10, nameout := some "part.mesh".toList }
        zeroSol [] = .exit st ["  Exit program.\n"] :=
  (C6_budget_failure_exits
    { zeroMesh with memMax := 12, memCur := 10, nameout := some "part.mesh".toList }
    zeroSol).2.2 [] "part.sol".toList (by decide) (by decide)

/-- C7 (evaluation at the failing input): when the incoming solution handle is
already allocated, `MMG5_Alloc_mesh` leaves the new mesh with
`memCur = -sizeof(MMG5_Sol)`, which is `-56` for the usual 56-byte `MMG5_Sol`,
whatever the incoming mesh handle. -/
theorem C7_alloc_mesh_memCur (sizeofSol : Int) (mesh : Option MMG5_Mesh)
    (sol : MMG5_Sol) :
    (MMG5_Alloc_mesh sizeofSol mesh (some sol)).1.memCur = - sizeofSol ∧
    (MMG5_Alloc_mesh 56 mesh (some sol)).1.memCur < 0 := by
  simp [MMG5_Alloc_mesh, _MMG5_DEL_MEM, zeroMesh]

/-- C8: from a state with `memCur ≤ memMax`, every call of
`MMG5_Set_inputMeshName`, `MMG5_Set_inputSolName` or `MMG5_Set_outputSolName`
that returns to its caller (with 0 or 1), and every call of `MMG5_Free_names`,
leaves `memCur ≤ memMax`. -/
theorem C8_memCur_le_memMax (mesh : MMG5_Mesh) (sol : MMG5_Sol)
    (h : mesh.memCur ≤ mesh.memMax) :
    (∀ meshin code m' out,
      MMG5_Set_inputMeshName mesh meshin = .ret code m' out →
        m'.memCur ≤ m'.memMax) ∧
    (∀ solin code m' s' out,
      MMG5_Set_inputSolName mesh sol solin = .ret code (m', s') out →
        m'.memCur ≤ m'.memMax) ∧
    (∀ solout code m' s' out,
      MMG5_Set_outputSolName mesh sol solout = .ret code (m', s') out →
        m'.memCur ≤ m'.memMax) ∧
    (∀ met, (MMG5_Free_names mesh met).1.memCur ≤ (MMG5_Free_names mesh met).1.memMax) := by
  refine ⟨?_, ?_, ?_, ?_⟩
  · intro meshin code m' out hr
    obtain ⟨_, ha, rfl⟩ := inputMeshName_inv mesh m' meshin code out hr
    exact ha
  · intro solin code m' s' out hr
    obtain ⟨_, new, _, ha, rfl, _⟩ := inputSolName_inv mesh m' sol s' solin code out hr
    exact ha
  · intro solout code m' s' out hr
    rcases outputSolName_inv mesh m' sol s' solout code out hr with
      ⟨_, new, _, ha, rfl, _⟩ | ⟨_, _, _, rfl, _⟩
    · exact ha
    · have := nameBytes_pos sol.nameout
      show mesh.memCur - nameBytes sol.nameout ≤ mesh.memMax
      omega
  · intro met
    have h1 := nameBytes_pos mesh.nameout
    have h2 := nameBytes_pos mesh.namein
    cases met with
    | none =>
      rw [free_names_null_met]
      show mesh.memCur - nameBytes mesh.nameout - nameBytes mesh.namein ≤ mesh.memMax
      omega
    | some m =>
      have h3 := nameBytes_pos m.namein
      have h4 := nameBytes_pos m.nameout
      rw [free_names_memCur]
      show mesh.memCur - nameBytes mesh.nameout - nameBytes mesh.namein
        - nameBytes m.namein - nameBytes m.nameout ≤ mesh.memMax
      omega

/-- C8 witness: a returning `MMG5_Set_outputSolName` on a full budget (the
output mesh name is empty, the call returns 0). -/
theorem C8_memCur_le_memMax_witness :
    (({ zeroMesh with memMax := 5, memCur := 5 - nameBytes (some "a.sol".toList),
                      nameout := some [] } : MMG5_Mesh).memCur ≤ 5) :=
  (C8_memCur_le_memMax { zeroMesh with memMax := 5, memCur := 5, nameout := some [] }
    { namein := none, nameout := some "a.sol".toList } (by decide)).2.2.1
    [] 0 _ { namein := none, nameout := none } noOutputMeshName (by decide)

/-- C9: with a non-empty output mesh name `m` and the budget admitting the
result, `MMG5_Set_outputSolName` returns 1 and stores `solout` when `solout`
is non-empty; when `solout` is empty it stores `p ++ ".sol"`, where `p` is the
part of `m` before its first `".mesh"`, or all of `m` when `m` contains no
`".mesh"`. -/
theorem C9_outputSolName_result (mesh : MMG5_Mesh) (sol : MMG5_Sol)
    (solout m : CStr) (hm : mesh.nameout = some m) (hne : m ≠ []) :
    (solout ≠ [] → admits mesh sol.nameout solout →
      MMG5_Set_outputSolName mesh sol solout =
        .ret 1 ({ mesh with memCur := mesh.memCur - nameBytes sol.nameout
                              + (strlen solout + 1) },
                { sol with nameout := some solout }) []) ∧
    (solout = [] → ∀ p, BeforeFirstMesh m p →
      admits mesh sol.nameout (p ++ ".sol".toList) →
      MMG5_Set_outputSolName mesh sol solout =
        .ret 1 ({ mesh with memCur := mesh.memCur - nameBytes sol.nameout
                              + (strlen (p ++ ".sol".toList) + 1) },
                { sol with nameout := some (p ++ ".sol".toList) }) []) := by
  constructor
  · intro hs ha
    exact outputSolName_ret mesh sol solout solout
      (by simp [outputSolNameToStore, hs]) ha
  · intro hs p hp ha
    have hpc := beforeFirstMesh_unique m p hp
    exact outputSolName_ret mesh sol solout (p ++ ".sol".toList)
      (by simp [outputSolNameToStore, hs, hm, hne, hpc]) ha

/-- C9 witness: `"a.meshb"` gives `"a.sol"` and `"out"` gives `"out.sol"`. -/
theorem C9_outputSolName_result_witness :
    MMG5_Set_outputSolName
        { zeroMesh with memMax := 100, nameout := some "a.meshb".toList } zeroSol [] =
      .ret 1 ({ zeroMesh with memMax := 100, memCur := 6,
                              nameout := some "a.meshb".toList },
              { namein := none, nameout := some "a.sol".toList }) [] ∧
    MMG5_Set_outputSolName
        { zeroMesh with memMax := 100, nameout := some "out".toList } zeroSol [] =
      .ret 1 ({ zeroMesh with memMax := 100, memCur := 8,
                              nameout := some "out".toList },
              { namein := none, nameout := some "out.sol".toList }) [] :=
  ⟨(C9_outputSolName_result
      { zeroMesh with memMax := 100, nameout := some "a.meshb".toList } zeroSol
      [] "a.meshb".toList rfl (by decide)).2 rfl "a".toList
      (Or.inr ⟨"b".toList, by decide, fun p' r' hp' => by
        cases p' with
        | nil => simp at hp'
        | cons c t => simp⟩)
      (by decide),
   (C9_outputSolName_result
      { zeroMesh with memMax := 100, nameout := some "out".toList } zeroSol
      [] "out".toList rfl (by decide)).2 rfl "out".toList
      (Or.inl ⟨by decide, rfl⟩) (by decide)⟩

/-- C10: every successful call of a name setter leaves a stored name and
changes `memCur` by exactly the bytes of that name less the bytes of the name
it replaced; `MMG5_Free_names` subtracts the bytes of every stored name, so
that after setting the three names and freeing them `memCur` is its value
before the calls less the bytes of the names stored at that time (nothing when
there were none). -/
theorem C10_name_accounting (mesh : MMG5_Mesh) (sol : MMG5_Sol) :
    (∀ meshin m' out, MMG5_Set_inputMeshName mesh meshin = .ret 1 m' out →
      ∃ stored, m'.namein = some stored ∧
        m'.memCur = mesh.memCur - nameBytes mesh.namein + (strlen stored + 1)) ∧
    (∀ solin m' s' out, MMG5_Set_inputSolName mesh sol solin = .ret 1 (m', s') out →
      ∃ stored, s'.namein = some stored ∧
        m'.memCur = mesh.memCur - nameBytes sol.namein + (strlen stored + 1)) ∧
    (∀ solout m' s' out, MMG5_Set_outputSolName mesh sol solout = .ret 1 (m', s') out →
      ∃ stored, s'.nameout = some stored ∧
        m'.memCur = mesh.memCur - nameBytes sol.nameout + (strlen stored + 1)) ∧
    (MMG5_Free_names mesh (some sol)).1.memCur =
      mesh.memCur - nameBytes mesh.nameout - nameBytes mesh.namein
        - nameBytes sol.namein - nameBytes sol.nameout ∧
    (∀ a b c m1 o1 m2 s2 o2 m3 s3 o3,
      MMG5_Set_inputMeshName mesh a = .ret 1 m1 o1 →
      MMG5_Set_inputSolName m1 sol b = .ret 1 (m2, s2) o2 →
      MMG5_Set_outputSolName m2 s2 c = .ret 1 (m3, s3) o3 →
      (MMG5_Free_names m3 (some s3)).1.memCur =
        mesh.memCur - nameBytes mesh.nameout - nameBytes mesh.namein
          - nameBytes sol.namein - nameBytes sol.nameout) := by
  refine ⟨?_, ?_, ?_, ?_, ?_⟩
  · intro meshin m' out hr
    obtain ⟨_, _, rfl⟩ := inputMeshName_inv mesh m' meshin 1 out hr
    exact ⟨_, rfl, rfl⟩
  · intro solin m' s' out hr
    obtain ⟨_, new, _, _, rfl, rfl⟩ := inputSolName_inv mesh m' sol s' solin 1 out hr
    exact ⟨new, rfl, rfl⟩
  · intro solout m' s' out hr
    rcases outputSolName_inv mesh m' sol s' solout 1 out hr with
      ⟨_, new, _, _, rfl, rfl⟩ | ⟨h0, _⟩
    · exact ⟨new, rfl, rfl⟩
    · exact absurd h0 (by decide)
  · rw [free_names_memCur]
  · intro a b c m1 o1 m2 s2 o2 m3 s3 o3 h1 h2 h3
    obtain ⟨_, _, rfl⟩ := inputMeshName_inv mesh m1 a 1 o1 h1
    obtain ⟨_, n2, _, _, rfl, rfl⟩ := inputSolName_inv _ m2 sol s2 b 1 o2 h2
    rcases outputSolName_inv _ m3 _ s3 c 1 o3 h3 with
      ⟨_, n3, _, _, rfl, rfl⟩ | ⟨h0, _⟩
    · rw [free_names_memCur]
      simp only [nameBytes]
      ring
    · exact absurd h0 (by decide)

/-- C10 witness: from a state without names and `memCur = 7`, setting
`"cube.mesh"`, the derived `"cube"` and `"cube.o.sol"` and then freeing the
names brings `memCur` back to 7. -/
theorem C10_name_accounting_witness :
    (MMG5_Free_names
        { zeroMesh with memMax := 100, memCur := 7 + 10 + 5 + 11,
                        namein := some "cube.mesh".toList }
        (some { namein := some "cube".toList,
                nameout := some "cube.o.sol".toList })).1.memCur =
      7 - nameBytes none - nameBytes none - nameBytes none - nameBytes none :=
  (C10_name_accounting { zeroMesh with memMax := 100, memCur := 7 } zeroSol).2.2.2.2
    "cube.mesh".toList [] "cube.o.sol".toList
    { zeroMesh with memMax := 100, memCur := 7 + 10,
                    namein := some "cube.mesh".toList } []
    { zeroMesh with memMax := 100, memCur := 7 + 10 + 5,
                    namein := some "cube.mesh".toList }
    { namein := some "cube".toList, nameout := none } []
    { zeroMesh with memMax := 100, memCur := 7 + 10 + 5 + 11,
                    namein := some "cube.mesh".toList }
    { namein := some "cube".toList, nameout := some "cube.o.sol".toList } []
    (by decide) (by decide) (by decide)

/-! ## The reserved buffer -/

theorem strstr_some_le (needle hay : CStr) (i : Nat)
    (h : strstr hay needle = some i) : i + needle.length ≤ hay.length := by
  have hp := (strstr_some_spec needle hay i h).1
  have hl := hp.length_le
  rw [List.length_drop] at hl
  by_cases hi : i ≤ hay.length
  · omega
  · have hd : hay.drop i = [] := List.drop_eq_nil_of_le (by omega)
    rw [hd] at hp
    have hn : needle = [] := List.prefix_nil.mp hp
    have h0 : strstr hay needle = some 0 := by
      rw [hn]
      cases hay <;> simp [strstr]
    rw [h0] at h
    injection h with h
    omega

theorem cutAtMesh_length_found (m : CStr) (i : Nat)
    (h : strstr m ".mesh".toList = some i) :
    (cutAtMesh m).length = i ∧ i + 5 ≤ m.length := by
  have hle := strstr_some_le _ m i h
  have h5 : ".mesh".toList.length = 5 := by decide
  unfold cutAtMesh
  rw [h]
  simp only [List.length_take]
  omega

theorem cutAtMesh_not_found (m : CStr) (h : strstr m ".mesh".toList = none) :
    cutAtMesh m = m := by
  unfold cutAtMesh
  rw [h]

theorem bufSize_bounds (m : CStr) :
    strlen m + 1 ≤ outputSolNameBufSize m ∧
    strlen (cutAtMesh m ++ ".sol".toList) + 1 ≤ outputSolNameBufSize m := by
  have h4 : ".sol".toList.length = 4 := by decide
  cases hr : strstr m ".mesh".toList with
  | none =>
    rw [cutAtMesh_not_found m hr]
    simp only [outputSolNameBufSize, hr, strlen, List.length_append, h4]
    constructor
    · omega
    · push_cast
      omega
  | some i =>
    obtain ⟨hl, hle⟩ := cutAtMesh_length_found m i hr
    simp only [outputSolNameBufSize, hr, strlen, List.length_append, h4, hl]
    constructor
    · omega
    · push_cast
      omega

/-- C11: for every non-empty output mesh name `m`, the buffer reserved by
`MMG5_Set_outputSolName` has `length m + 1` chars when `m` contains `".mesh"`
and `length m + 5` otherwise; the copied `m` and the derived name `d`, each
with its terminating byte, fit it, so that the `strcpy` and `strcat` of lines
238-243 stay inside the buffer and leave `d`, the name the setter stores. -/
theorem C11_derived_name_fits (m : CStr) (hne : m ≠ []) :
    (".mesh".toList <:+: m → outputSolNameBufSize m = strlen m + 1) ∧
    (¬ ".mesh".toList <:+: m → outputSolNameBufSize m = strlen m + 5) ∧
    strlen m + 1 ≤ outputSolNameBufSize m ∧
    (∀ d, outputSolNameToStore (some m) [] = some d →
      strlen d + 1 ≤ outputSolNameBufSize m ∧ deriveOutputSolName m = some d) := by
  obtain ⟨hb1, hb2⟩ := bufSize_bounds m
  refine ⟨?_, ?_, hb1, ?_⟩
  · intro hin
    cases hr : strstr m ".mesh".toList with
    | none => exact absurd hin ((strstr_eq_none_iff _ _).mp hr)
    | some i =>
      unfold outputSolNameBufSize
      rw [hr]
  · intro hno
    unfold outputSolNameBufSize
    rw [(strstr_eq_none_iff _ _).mpr hno]
  · intro d hd
    have hd' : d = cutAtMesh m ++ ".sol".toList := by
      simp [outputSolNameToStore, hne] at hd
      exact hd.symm
    subst hd'
    refine ⟨hb2, ?_⟩
    have hb3 : strlen (cutAtMesh m) + strlen ".sol".toList + 1
        ≤ outputSolNameBufSize m := by
      simpa [strlen, Int.add_assoc] using hb2
    unfold deriveOutputSolName strcpy
    simp only [if_pos hb1]
    unfold strcat
    rw [if_pos hb3]

/-- C11 witness: `"part.mesh"` is copied into 10 chars and leaves `"part.sol"`;
the size is `length + 1` because `".mesh"` is found. -/
theorem C11_derived_name_fits_witness :
    outputSolNameBufSize "part.mesh".toList = strlen "part.mesh".toList + 1 ∧
    strlen "part.sol".toList + 1 ≤ outputSolNameBufSize "part.mesh".toList ∧
    deriveOutputSolName "part.mesh".toList = some "part.sol".toList :=
  have h := C11_derived_name_fits "part.mesh".toList (by decide)
  ⟨h.1 (by decide), h.2.2.2 "part.sol".toList (by decide)⟩

/-- C12: with an empty output mesh name and an empty `solout`,
`MMG5_Set_outputSolName` returns 0 and has nevertheless released the stored
output solution name: afterwards that name is absent and `memCur` is reduced by
its bytes (`length + 1`, nothing when there was none), while the mesh input
name, the mesh output name and the input solution name are unchanged.  A
successful derivation leaves the mesh output name it reads unchanged. -/
theorem C12_failure_releases_old_name (mesh : MMG5_Mesh) (sol : MMG5_Sol) :
    (mesh.nameout = some [] →
      ∃ m' s' out, MMG5_Set_outputSolName mesh sol [] = .ret 0 (m', s') out ∧
        s'.nameout = none ∧
        m'.memCur = mesh.memCur - nameBytes sol.nameout ∧
        m'.namein = mesh.namein ∧ m'.nameout = mesh.nameout ∧
        s'.namein = sol.namein) ∧
    (∀ m, mesh.nameout = some m → m ≠ [] →
      admits mesh sol.nameout (cutAtMesh m ++ ".sol".toList) →
      ∃ m' s' out, MMG5_Set_outputSolName mesh sol [] = .ret 1 (m', s') out ∧
        m'.nameout = some m ∧ s'.nameout = some (cutAtMesh m ++ ".sol".toList)) ∧
    (∀ solout m' s' out,
      MMG5_Set_outputSolName mesh sol solout = .ret 1 (m', s') out →
        m'.nameout = mesh.nameout) := by
  refine ⟨?_, ?_, ?_⟩
  · intro hm
    exact ⟨_, _, _, outputSolName_missing mesh sol hm, rfl, rfl, rfl, rfl, rfl⟩
  · intro m hm hne ha
    have hn : outputSolNameToStore mesh.nameout [] =
        some (cutAtMesh m ++ ".sol".toList) := by
      simp [outputSolNameToStore, hm, hne]
    exact ⟨_, _, _, outputSolName_ret mesh sol [] _ hn ha, hm, rfl⟩
  · intro solout m' s' out hr
    rcases outputSolName_inv mesh m' sol s' solout 1 out hr with
      ⟨_, new, _, _, rfl, _⟩ | ⟨h0, _⟩
    · rfl
    · exact absurd h0 (by decide)

/-- C12 witness: the stored `"old.sol"` (8 bytes) is released by the failing
call, and `memCur` goes from 8 to 0. -/
theorem C12_failure_releases_old_name_witness :
    ∃ m' s' out, MMG5_Set_outputSolName
          { zeroMesh with memMax := 20, memCur := 8, nameout := some [] }
          { namein := none, nameout := some "old.sol".toList } []
        = .ret 0 (m', s') out ∧
      s'.nameout = none ∧
      m'.memCur = 8 - nameBytes (some "old.sol".toList) ∧
      m'.namein = none ∧ m'.nameout = some [] ∧ s'.namein = none :=
  (C12_failure_releases_old_name
    { zeroMesh with memMax := 20, memCur := 8, nameout := some [] }
    { namein := none, nameout := some "old.sol".toList }).1 rfl

end MMG5
